import Mathlib

/-!
# Verification of the file-parser document loader

Shallow embedding of `src/lib/document-loader.mjs` (heuristic DOCX table
reconstructor plus ingestion orchestrator) and of the `tableSampleRows`
clamp from `src/tools/process-documents.mjs`.

Modelling conventions:
* JS strings are modelled as Lean `String` (sequences of characters; JS
  UTF-16 surrogate pairs are not modelled, `String.length` stands for the
  JS `.length`).
* The regex `\s` is modelled by `Char.isWhitespace`, `\d` by `Char.isDigit`
  (both match JS semantics on the ASCII range; `\d` is ASCII-only in JS).
* `parseNumberToken` returns the value of the first `-?\d+(?:\.\d+)?` match;
  such a match exists iff the string contains a digit.  The JS
  `Number.isFinite` guard only fails for tokens of ≥ 309 digits (float
  overflow); that corner is not modelled.
* Filesystem and external extraction libraries (`path-utils.mjs`,
  pdf-parse, mammoth, word-extractor, xlsx) are modelled as an explicit
  per-path oracle (`FileWorld`); the SHA-256 hex digest and
  `JSON.stringify` are abstracted as function parameters, since no claim
  depends on their internals, only on which bytes / rows they receive.
-/

namespace DocLoader

/-- JS `\s` character class (approximated by Unicode whitespace). -/
def jsIsSpace (c : Char) : Bool := c.isWhitespace

/-- Drop leading and trailing whitespace from a character list
(JS `String.prototype.trim`). -/
def trimChars (cs : List Char) : List Char :=
  ((cs.dropWhile jsIsSpace).reverse.dropWhile jsIsSpace).reverse

/-- JS `String.prototype.trim`. -/
def jsTrim (s : String) : String := String.mk (trimChars s.data)

/-- `replace(/\s+/g, " ")`: collapse every whitespace run to one space.
The flag records whether the previous character was whitespace (already
replaced), so a run contributes a single space. -/
def collapseWSAux : Bool → List Char → List Char
  | _, [] => []
  | inRun, c :: rest =>
    if jsIsSpace c then
      if inRun then collapseWSAux true rest else ' ' :: collapseWSAux true rest
    else c :: collapseWSAux false rest

/-- `replace(/\s+/g, " ")`. -/
def collapseWS (cs : List Char) : List Char := collapseWSAux false cs

/-- JS lines 165-169: `String(value || "").replace(/\s+/g, " ").trim()`. -/
def normaliseLine (value : String) : String :=
  String.mk (trimChars (collapseWS value.data))

/-- Characters kept by `normalisedKey`'s `[^a-z0-9]` class (after
lowercasing). -/
def isKeyChar (c : Char) : Bool :=
  ('a' ≤ c ∧ c ≤ 'z') ∨ ('0' ≤ c ∧ c ≤ '9')

/-- `replace(/[^a-z0-9]+/g, " ")`: collapse every run of non-key
characters to one space (same run-flag scheme as `collapseWSAux`). -/
def keyCollapseAux : Bool → List Char → List Char
  | _, [] => []
  | inRun, c :: rest =>
    if isKeyChar c then c :: keyCollapseAux false rest
    else if inRun then keyCollapseAux true rest
    else ' ' :: keyCollapseAux true rest

/-- `replace(/[^a-z0-9]+/g, " ")`. -/
def keyCollapse (cs : List Char) : List Char := keyCollapseAux false cs

/-- JS lines 171-176: `normaliseLine(value).toLowerCase()
.replace(/[^a-z0-9]+/g, " ").trim()`. -/
def normalisedKey (value : String) : String :=
  String.mk (trimChars (keyCollapse ((normaliseLine value).data.map Char.toLower)))

/-- Split on `/\r?\n/` (JS line 423). -/
def splitLinesAux : List Char → List Char → List (List Char)
  | [], acc => [acc.reverse]
  | '\n' :: rest, acc =>
    (match acc with
     | '\r' :: acc' => acc'.reverse
     | _ => acc.reverse) :: splitLinesAux rest []
  | c :: rest, acc => splitLinesAux rest (c :: acc)

/-- JS `text.split(/\r?\n/)`. -/
def jsSplitLines (text : String) : List String :=
  (splitLinesAux text.data []).map String.mk

/-- The first `-?\d+(?:\.\d+)?` regex match exists iff the string holds a
digit (a digit alone is already a match).  Used where JS only tests the
match for existence/finiteness (lines 403-404). -/
def hasNumberToken (s : String) : Bool := s.data.any Char.isDigit

/-- Decimal value of a digit string (`Number` on an all-digit string). -/
def digitsToNat (cs : List Char) : Nat :=
  cs.foldl (fun acc c => acc * 10 + (c.toNat - 48)) 0

/-- JS lines 357-368 condensed: `parseNumberToken(candidate)` truncated to
an integer, accepted iff it lies in `[1, 500]` **and**
`normaliseLine(candidate)` matches `/^\d+$/`.  When the digits-only test
passes, the first number token is the whole normalised line, so the
accepted value is its decimal reading; every other case is rejected by
the JS `if` either way. -/
def rowNumberOf (candidate : String) : Option Nat :=
  let t := normaliseLine candidate
  if t ≠ "" ∧ t.data.all Char.isDigit then
    let n := digitsToNat t.data
    if 0 < n ∧ n ≤ 500 then some n else none
  else none

/-- One scalar cell of a reconstructed/sampled table row.  The
reconstructor stores the row number as a JS number (`lineNoInt`) and
everything else as strings; spreadsheet cells may also be `null`. -/
inductive CellValue where
  | str : String → CellValue
  | num : Int → CellValue
  | nullv : CellValue
deriving DecidableEq, Repr

/-- One table row: ordered mapping from column name to scalar (JS object,
insertion order). -/
abbrev Row := List (String × CellValue)

/-- A reconstructed or sampled table (JS `{name, totalRows, sampleRows}`). -/
structure Table where
  name : String
  totalRows : Nat
  sampleRows : List Row
deriving DecidableEq, Repr

/-- JS `String.prototype.startsWith` (char-list prefix test). -/
def strStartsWith (s pre : String) : Bool := pre.data.isPrefixOf s.data

/-- Does `s` contain `pat` as a contiguous run? -/
def charsContain (pat : List Char) : List Char → Bool
  | [] => pat.isEmpty
  | c :: rest => pat.isPrefixOf (c :: rest) || charsContain pat rest

/-- JS `String.prototype.includes`. -/
def strContains (s pat : String) : Bool := charsContain pat.data s.data

/-- Split a character list at every character satisfying `p`. -/
def splitChars (p : Char → Bool) : List Char → List (List Char)
  | [] => [[]]
  | c :: rest =>
    if p c then [] :: splitChars p rest
    else
      match splitChars p rest with
      | [] => [[c]]
      | w :: ws => (c :: w) :: ws

/-- JS Set construction: distinct elements in insertion order. -/
def dedupeAux : List String → List String → List String
  | [], _ => []
  | x :: xs, seen =>
    if seen.contains x then dedupeAux xs seen
    else x :: dedupeAux xs (x :: seen)

/-- JS `new Set(list)` as an insertion-ordered duplicate-free list. -/
def dedupe (l : List String) : List String := dedupeAux l []

/-- JS line 194: `raw.match(/^[^:]+:\s*(.+)$/)`, returning
`normaliseLine(match[1])` when the regex matches (the captured group is
never empty, hence always truthy).  The greedy `\s*` backtracks one
whitespace character when everything after the colon is whitespace, so
the group is then a single whitespace character, which normalises to
`""`. -/
def inlineHeaderValue (raw : String) : Option String :=
  let cs := raw.data
  let before := cs.takeWhile (fun c => c ≠ ':')
  match before, cs.dropWhile (fun c => c ≠ ':') with
  | [], _ => none
  | _ :: _, [] => none
  | _ :: _, _ :: after =>
    if after.isEmpty then none
    else
      let g := after.dropWhile jsIsSpace
      if g.isEmpty then some "" else some (normaliseLine (String.mk g))

/-- JS lines 188-205, the body of the `for (const key of candidateKeys)`
loop for one key: on a `startsWith` hit try the inline (colon) value,
then the label-only/next-line value; `rest` is the list of lines after
the current one. -/
def headerKeyAttempt (keys : List String) (key line : String)
    (rest : List String) (normalized : String) : Option String :=
  if strStartsWith normalized key then
    match inlineHeaderValue line with
    | some v => some v
    | none =>
      if normalized = key then
        match rest with
        | [] => none
        | nextLine :: _ =>
          let next := normaliseLine nextLine
          if next ≠ "" ∧ ¬ keys.contains (normalisedKey next) then some next
          else none
      else none
  else none

/-- JS lines 181-206, the outer `for` loop of `extractDocxHeaderValue`:
scan lines in order, skip lines with an empty normalised key, and return
the first value any candidate key produces. -/
def headerValueGo (keys : List String) : List String → Option String
  | [] => none
  | line :: rest =>
    let normalized := normalisedKey line
    if normalized = "" then headerValueGo keys rest
    else
      match keys.findSome? (fun key => headerKeyAttempt keys key line rest normalized) with
      | some v => some v
      | none => headerValueGo keys rest

/-- JS lines 178-209: `extractDocxHeaderValue(lines, variants)`. -/
def extractDocxHeaderValue (lines : List String) (variants : List String) : String :=
  let candidateKeys := dedupe (variants.map normalisedKey)
  (headerValueGo candidateKeys lines).getD ""

/-- JS lines 227-264: `extractDocxRequestHeader`, returning the
single-row payload when at least one field resolved (`hasAnyValue`),
else `none`. -/
def extractDocxRequestHeader (lines : List String) : Option Row :=
  let orderNumber := extractDocxHeaderValue lines
    ["Order Number", "Job Number", "Job ID", "Order ID"]
  let requestedBy := extractDocxHeaderValue lines
    ["Order Requested by", "Requested By", "Ordered By", "Client"]
  let project := extractDocxHeaderValue lines ["Project", "Job Name"]
  let site := extractDocxHeaderValue lines ["Site", "Location"]
  let dateOrdered := extractDocxHeaderValue lines ["Date Ordered", "Created", "Date"]
  let dateRequired := extractDocxHeaderValue lines
    ["Date Required", "Required Date", "Need By"]
  let payload : Row :=
    [("Order Number", .str orderNumber),
     ("Order Requested by", .str requestedBy),
     ("Project", .str project),
     ("Site", .str site),
     ("Date Ordered", .str dateOrdered),
     ("Date Required", .str dateRequired)]
  if [orderNumber, requestedBy, project, site, dateOrdered, dateRequired].any
      (fun v => normaliseLine v ≠ "") then
    some payload
  else none

/-- JS lines 266-293: the immutable noise vocabulary. -/
def docxNoiseList : List String :=
  ["metadata", "content", "stores use only", "stores use", "no",
   "material plant description", "material", "plant description",
   "quantity", "required", "quantity required", "quantity issued",
   "issued", "quantity short", "short", "quantity returned", "returned",
   "ccl no", "order number", "order requested by", "date ordered",
   "project", "date required", "site"]

/-- JS line 300: `/^[-–—:]+$/`. -/
def isSeparatorRun (t : String) : Bool :=
  t ≠ "" ∧ t.data.all (fun c => c = '-' ∨ c = '–' ∨ c = '—' ∨ c = ':')

/-- JS lines 295-314: `isDocxNoiseLine(line, noiseSet)`. -/
def isDocxNoiseLine (line : String) : Bool :=
  let text := normaliseLine line
  if text = "" then true
  else if isSeparatorRun text then true
  else
    let normalized := normalisedKey text
    if normalized = "" then true
    else if docxNoiseList.contains normalized then true
    else if strStartsWith normalized "quantity " ∨ strStartsWith normalized "order " then true
    else false

/-- JS lines 318-325: end-of-section markers. -/
def endSectionMarkers : List String :=
  ["signed by", "issue by", "issued by", "received by", "returned by", "storeman"]

/-- JS lines 327-339: the scan-window start index. -/
def itemsStartIndex (lines : List String) : Nat :=
  match lines.findIdx? (fun line => strContains (normalisedKey line) "stores use") with
  | some i => i + 1
  | none =>
    match lines.findIdx? (fun line => normalisedKey line = "quantity required") with
    | some i => i + 1
    | none => 0

/-- JS lines 341-350: first index after `startIndex` matching an
end-of-section marker, else `lines.length`. -/
def itemsEndIndex (lines : List String) (startIndex : Nat) : Nat :=
  match (List.range lines.length).find? (fun i =>
      decide (startIndex < i) &&
      endSectionMarkers.any (fun m => strContains (normalisedKey (lines.getD i "")) m)) with
  | some i => i
  | none => lines.length

/-- JS line 352: `lines.slice(startIndex, endIndexExclusive)`. -/
def scopedLinesOf (lines : List String) : List String :=
  (lines.take (itemsEndIndex lines (itemsStartIndex lines))).drop (itemsStartIndex lines)

/-- JS line 152. -/
def DEFAULT_MAX_REQUEST_ITEMS : Nat := 500

/-- JS lines 370-376 / 391-397: advance an index past noise lines: the
first index `≥ i` holding a non-noise line, or the loop exit point
(`sc.length`, or `i` itself when `i` already lies past the end). -/
def skipNoise (sc : List String) (i : Nat) : Nat :=
  match (sc.drop i).findIdx? (fun l => !isDocxNoiseLine l) with
  | some k => i + k
  | none => max i sc.length

theorem skipNoise_le (sc : List String) (i : Nat) : i ≤ skipNoise sc i := by
  unfold skipNoise
  split
  · omega
  · omega

/-- Result of one iteration of the item-row scan loop (JS lines 356-416):
`halt` models `break`, `skip` the `continue` paths, `emit` a
`rows.push` followed by a cursor move. -/
inductive StepResult where
  | halt : StepResult
  | skip : Nat → StepResult
  | emit : Row → Nat → StepResult
deriving DecidableEq, Repr

/-- One iteration of the `while` loop of `extractDocxRequestItems`
(JS lines 357-415), for a cursor inside the window. -/
def scanStep (sc : List String) (cursor : Nat) : StepResult :=
  let candidate := sc.getD cursor ""
  match rowNumberOf candidate with
  | none => .skip (cursor + 1)
  | some lineNoInt =>
    let descriptionIndex := skipNoise sc (cursor + 1)
    if descriptionIndex ≥ sc.length then .halt
    else
      let description := normaliseLine (sc.getD descriptionIndex "")
      if description = "" ∨ (description.data ≠ [] ∧ description.data.all Char.isDigit)
          ∨ isDocxNoiseLine description then .skip (cursor + 1)
      else
        let quantityIndex := skipNoise sc (descriptionIndex + 1)
        if quantityIndex ≥ sc.length then .halt
        else
          let quantityRaw := normaliseLine (sc.getD quantityIndex "")
          if hasNumberToken quantityRaw then
            .emit [("No.", .num lineNoInt),
                   ("Material/Plant Description", .str description),
                   ("Quantity Required", .str quantityRaw)] (quantityIndex + 1)
          else .skip (descriptionIndex + 1)

theorem scanStep_skip_lt {sc : List String} {cursor n : Nat}
    (h : scanStep sc cursor = .skip n) : cursor < n := by
  simp only [scanStep] at h
  split at h
  · injection h with h
    omega
  · split at h
    · exact absurd h (by simp)
    · split at h
      · injection h with h
        omega
      · split at h
        · exact absurd h (by simp)
        · split at h
          · exact absurd h (by simp)
          · injection h with h
            have := skipNoise_le sc (cursor + 1)
            omega

theorem scanStep_emit_lt {sc : List String} {cursor n : Nat} {row : Row}
    (h : scanStep sc cursor = .emit row n) : cursor < n := by
  simp only [scanStep] at h
  split at h
  · exact absurd h (by simp)
  · split at h
    · exact absurd h (by simp)
    · split at h
      · exact absurd h (by simp)
      · split at h
        · exact absurd h (by simp)
        · split at h
          · injection h with _ h
            have h1 := skipNoise_le sc (cursor + 1)
            have h2 := skipNoise_le sc (skipNoise sc (cursor + 1) + 1)
            omega
          · exact absurd h (by simp)

/-- The `while (cursor < scopedLines.length && rows.length <
DEFAULT_MAX_REQUEST_ITEMS)` loop of JS lines 356-416. -/
def scanLoop (sc : List String) (cursor : Nat) (rows : List Row) : List Row :=
  if h : cursor < sc.length ∧ rows.length < DEFAULT_MAX_REQUEST_ITEMS then
    match hs : scanStep sc cursor with
    | .halt => rows
    | .skip n => scanLoop sc n rows
    | .emit row n => scanLoop sc n (rows ++ [row])
  else rows
termination_by sc.length - cursor
decreasing_by
  · have := scanStep_skip_lt hs
    omega
  · have := scanStep_emit_lt hs
    omega

/-- JS lines 316-419: `extractDocxRequestItems(lines)`. -/
def extractDocxRequestItems (lines : List String) : List Row :=
  scanLoop (scopedLinesOf lines) 0 []

/-- Fuel-indexed rendering of the same while loop, by structural
recursion (used to evaluate the loop on concrete inputs). -/
def scanLoopFuel : Nat → List String → Nat → List Row → List Row
  | 0, _, _, rows => rows
  | fuel + 1, sc, cursor, rows =>
    if cursor < sc.length ∧ rows.length < DEFAULT_MAX_REQUEST_ITEMS then
      match scanStep sc cursor with
      | .halt => rows
      | .skip n => scanLoopFuel fuel sc n rows
      | .emit row n => scanLoopFuel fuel sc n (rows ++ [row])
    else rows

/-- Because every iteration strictly advances the cursor, one fuel unit
per remaining window line suffices: the fuel-indexed loop agrees with
the while loop. -/
theorem scanLoopFuel_adequate (fuel : Nat) (sc : List String) (cursor : Nat)
    (rows : List Row) (h : sc.length - cursor ≤ fuel) :
    scanLoopFuel fuel sc cursor rows = scanLoop sc cursor rows := by
  induction fuel generalizing cursor rows with
  | zero =>
    have hc : ¬ (cursor < sc.length ∧ rows.length < DEFAULT_MAX_REQUEST_ITEMS) := by
      omega
    rw [scanLoop, dif_neg hc]
    rfl
  | succ fuel ih =>
    rw [scanLoop]
    by_cases hc : cursor < sc.length ∧ rows.length < DEFAULT_MAX_REQUEST_ITEMS
    · rw [dif_pos hc]
      simp only [scanLoopFuel, if_pos hc]
      cases hs : scanStep sc cursor with
      | halt => rfl
      | skip n =>
        have := scanStep_skip_lt hs
        exact ih n rows (by omega)
      | emit row n =>
        have := scanStep_emit_lt hs
        exact ih n (rows ++ [row]) (by omega)
    · simp only [scanLoopFuel, if_neg hc, dif_neg hc]

/-- Evaluation form of `extractDocxRequestItems` (the window length
bounds the iteration count). -/
theorem extractDocxRequestItems_eval (lines : List String) :
    extractDocxRequestItems lines =
      scanLoopFuel (scopedLinesOf lines).length (scopedLinesOf lines) 0 [] := by
  rw [extractDocxRequestItems,
    scanLoopFuel_adequate (scopedLinesOf lines).length (scopedLinesOf lines) 0 []
      (by omega)]

/-- JS lines 421-451: `parseDocxTextToTables(text)` for a string input. -/
def parseDocxTextToTables (text : String) : List Table :=
  let lines := ((jsSplitLines text).map normaliseLine).filter (fun l => l ≠ "")
  if lines.isEmpty then []
  else
    let headerTables : List Table :=
      match extractDocxRequestHeader lines with
      | some headerRow => [⟨"Request Header", 1, [headerRow]⟩]
      | none => []
    let requestItems := extractDocxRequestItems lines
    if requestItems.length ≠ 0 then
      headerTables ++ [⟨"Request Items", requestItems.length, requestItems⟩]
    else headerTables

/-- JS `parseDocxTextToTables` on an arbitrary value: `String(text || "")`
maps `null`/`undefined` (and other falsy values) to `""`; every other
value coerces to some string, covered by `some`. -/
def parseDocxTextToTablesJS (text : Option String) : List Table :=
  parseDocxTextToTables (text.getD "")

/-- JS line 151. -/
def DEFAULT_PREVIEW_LIMIT : Nat := 6000

/-- JS lines 154-163: `truncate(value, limit)`.  The limit is a size, so
it is modelled as `Nat` (the JS callers clamp or default it; negative
`slice` arguments are outside the data model).  `…` (U+2026) is a single
character, exactly as it is a single UTF-16 unit in JS. -/
def truncate (value : String) (limit : Nat) : String :=
  if value = "" then ""
  else if value.length ≤ limit then value
  else String.mk (value.data.take limit) ++ "…"

/-- `text.trim().split(/\s+/).filter(Boolean)` (JS line 531): the
whitespace-delimited non-empty tokens. -/
def wordsOf (s : String) : List String :=
  ((splitChars jsIsSpace s.data).map String.mk).filter (fun w => w ≠ "")

/-- The summary record of JS lines 526-535. -/
structure Summary where
  charCount : Nat
  wordCount : Nat
  tableCount : Nat
  preview : String
deriving DecidableEq, Repr

/-- JS lines 526-535: `createDocumentSummary(doc, previewLimit)`; the
`doc.text || ""` and `Array.isArray(doc.tables)` coercions are reflected
by the callers passing the text (always a string here) and the attached
tables (`[]` when the loader set none). -/
def createDocumentSummary (text : String) (tables : List Table)
    (previewLimit : Nat) : Summary :=
  { charCount := text.length
  , wordCount := (wordsOf text).length
  , tableCount := tables.length
  , preview := truncate text previewLimit }

/-- UTF-8 encoding of one character (for `Buffer.from(text, "utf8")`). -/
def utf8Char (c : Char) : List Nat :=
  let n := c.toNat
  if n < 0x80 then [n]
  else if n < 0x800 then [0xC0 + n / 0x40, 0x80 + n % 0x40]
  else if n < 0x10000 then
    [0xE0 + n / 0x1000, 0x80 + n / 0x40 % 0x40, 0x80 + n % 0x40]
  else
    [0xF0 + n / 0x40000, 0x80 + n / 0x1000 % 0x40, 0x80 + n / 0x40 % 0x40,
     0x80 + n % 0x40]

/-- JS line 623: `Buffer.from(text, "utf8")` as a byte list. -/
def utf8Encode (s : String) : List Nat := s.data.flatMap utf8Char

/-- JS lines 139-149: the extension → tag table. -/
def SUPPORTED_TYPES : List (String × String) :=
  [(".pdf", "pdf"), (".txt", "txt"), (".text", "txt"), (".log", "txt"),
   (".md", "txt"), (".docx", "docx"), (".doc", "doc"), (".xlsx", "xlsx"),
   (".xls", "xlsx")]

/-- JS `String.prototype.toLowerCase` (per character). -/
def jsToLower (s : String) : String := String.mk (s.data.map Char.toLower)

/-- Node `path.extname`: the suffix of the last path component starting at
its last `.`, empty when there is no dot, the dot is the leading
character, or the component is `..`. -/
def jsExtname (p : String) : String :=
  let base := String.mk ((splitChars (fun c => c = '/') p.data).getLastD p.data)
  if base = ".." then ""
  else
    let revCs := base.data.reverse
    match revCs.dropWhile (fun c => c ≠ '.') with
    | [] => ""
    | _ :: restRev =>
      if restRev.isEmpty then ""
      else String.mk ('.' :: (revCs.takeWhile (fun c => c ≠ '.')).reverse)

/-- JS lines 453-462: `normaliseType(inputType, filePath)`. -/
def normaliseType (inputType : Option String) (filePath : String) : Option String :=
  let fromExt :=
    (SUPPORTED_TYPES.find? (fun kv => kv.1 == jsToLower (jsExtname filePath))).map
      Prod.snd
  match inputType with
  | some t =>
    if t ≠ "" ∧ (SUPPORTED_TYPES.map Prod.snd).contains (jsToLower t) then
      some (jsToLower t)
    else fromExt
  | none => fromExt

/-- Per-path behaviour of the filesystem and of the external extraction
libraries, recorded as an oracle: `readable` stands for
`assertFileReadable` + `readFileStats` succeeding (with `stats` an opaque
token and `accessMsg` the failure message), `bytes` for `readBinary`,
`txtText` for `readText`, `pdfText` for pdf-parse's `data.text`,
`docxText` for mammoth's raw text, `docText` for word-extractor's body,
and `xlsxSheets` for the sheet name/row lists that
`xlsx.utils.sheet_to_json` produces.  `Except.error` models a thrown
error carrying its message. -/
structure FileWorld where
  readable : Bool
  accessMsg : String
  stats : Nat
  bytes : Except String (List Nat)
  txtText : Except String String
  pdfText : Except String String
  docxText : Except String String
  docText : Except String String
  xlsxSheets : Except String (List (String × List Row))

/-- The `{type, text, tables?, metadata?}` record a loader returns,
together with the `buffer` local variable of the loop body (set only on
the pdf and doc paths, JS lines 594 and 600). -/
structure ParsedDoc where
  type : String
  text : String
  tables : Option (List Table)
  buffer : Option (List Nat)
deriving DecidableEq, Repr

/-- JS lines 497-524: `loadXlsx` on the rows the xlsx library produced;
`tableSampleRows` is `none` when the caller left it `undefined`
(default 10000), and `jshow` abstracts `JSON.stringify(rows, null, 2)`. -/
def loadXlsxFromRows (sheets : List (String × List Row))
    (tableSampleRows : Option Nat) (jshow : List Row → String) : ParsedDoc :=
  let n := tableSampleRows.getD 10000
  let tables : List Table := sheets.map (fun kv => ⟨kv.1, kv.2.length, kv.2.take n⟩)
  let text := String.intercalate "\n\n" (tables.map (fun t =>
    "Sheet: " ++ t.name ++ " (rows: " ++ toString t.totalRows ++ ")\n" ++
      (if t.sampleRows.length ≠ 0 then jshow t.sampleRows else "(empty sheet)")))
  ⟨"xlsx", text, some tables, none⟩

/-- JS lines 590-609: dispatch to the loader for the resolved tag
(`loadTxt`, `loadPdf`, `loadDocx`, `loadDoc`, `loadXlsx`, lines 468-524),
inside the inner `try`: `Except.error` is a thrown parse error. -/
def loadByType (w : FileWorld) (extType : String) (tableSampleRows : Option Nat)
    (jshow : List Row → String) : Except String ParsedDoc :=
  if extType = "txt" then
    match w.txtText with
    | .error e => .error e
    | .ok t => .ok ⟨"txt", t, none, none⟩
  else if extType = "pdf" then
    match w.bytes with
    | .error e => .error e
    | .ok b =>
      match w.pdfText with
      | .error e => .error e
      | .ok t => .ok ⟨"pdf", jsTrim t, none, some b⟩
  else if extType = "docx" then
    match w.docxText with
    | .error e => .error e
    | .ok t => .ok ⟨"docx", t, some (parseDocxTextToTables t), none⟩
  else if extType = "doc" then
    match w.docText with
    | .error e => .error e
    | .ok t =>
      match w.bytes with
      | .error e => .error e
      | .ok b => .ok ⟨"doc", t, none, some b⟩
  else if extType = "xlsx" then
    match w.xlsxSheets with
    | .error e => .error e
    | .ok sheets => .ok (loadXlsxFromRows sheets tableSampleRows jshow)
  else .error "unreachable"

/-- A produced Document (JS lines 626-635; the optional `metadata` field
carries no claim and is omitted). -/
structure Document where
  path : String
  label : Option String
  type : String
  text : String
  tables : List Table
  checksum : String
  stats : Nat
  summary : Summary
deriving DecidableEq, Repr

/-- A warning record (JS `{message, detail}`; an object detail is
flattened to an opaque string, no claim reads it). -/
structure Warning where
  message : String
  detail : String
deriving DecidableEq, Repr

/-- One element of the `fileEntries` array: a bare path string, an object
descriptor (`path` is `none` when absent or not a string), or any other
value (`null`, a number, ...) whose `String(entry)` rendering is kept for
the warning detail. -/
inductive JEntry where
  | strE : String → JEntry
  | objE : Option String → Option String → Option String → JEntry
  | badE : String → JEntry
deriving DecidableEq, Repr

/-- The per-descriptor outcome of one loop iteration: exactly one
Document push or one warning push. -/
inductive Outcome where
  | doc : Document → Outcome
  | warn : Warning → Outcome
deriving DecidableEq, Repr

/-- The parameters of one `loadDocuments` call that are external to the
descriptor list: the path oracle `env`, the content hash `hash`
(`crypto.createHash("sha256")...digest("hex")`, abstracted),
`JSON.stringify` as `jshow`, `resolveWorkspacePath` with the workspace
root applied as `resolve` (modelled total: the spec specifies path
resolution as pure pass-through/join plus separator normalisation), and
the two options. -/
structure LoadParams where
  env : String → FileWorld
  hash : List Nat → String
  jshow : List Row → String
  resolve : String → String
  tableSampleRows : Option Nat
  previewLimit : Nat

/-- JS lines 562-643: process one descriptor that is an object
(`rawPath`/`label`/`explicitType` destructured). -/
def processDescriptor (P : LoadParams) (rawPath : Option String)
    (label typeHint : Option String) : Outcome :=
  match rawPath with
  | none => .warn ⟨"Skipping document with missing path", "[descriptor]"⟩
  | some p =>
    if p = "" then .warn ⟨"Skipping document with missing path", "[descriptor]"⟩
    else
      let resolvedPath := P.resolve p
      let w := P.env resolvedPath
      if ¬ w.readable then
        .warn ⟨"Unable to access " ++ resolvedPath, w.accessMsg⟩
      else
        match normaliseType typeHint resolvedPath with
        | none => .warn ⟨"Unsupported file type", resolvedPath⟩
        | some extType =>
          match loadByType w extType P.tableSampleRows P.jshow with
          | .error msg => .warn ⟨"Failed to parse " ++ resolvedPath, msg⟩
          | .ok parsed =>
            let binary : Except String (List Nat) :=
              match parsed.buffer with
              | some b => .ok b
              | none =>
                if extType = "txt" then .ok (utf8Encode parsed.text)
                else w.bytes
            match binary with
            | .error e => .warn ⟨"Unable to access " ++ resolvedPath, e⟩
            | .ok bytes =>
              .doc { path := resolvedPath
                   , label := label
                   , type := parsed.type
                   , text := parsed.text
                   , tables := parsed.tables.getD []
                   , checksum := P.hash bytes
                   , stats := w.stats
                   , summary := createDocumentSummary parsed.text
                       (parsed.tables.getD []) P.previewLimit }

/-- JS lines 549-644: one iteration of the `for (const entry of
fileEntries)` loop (bare strings become `{path}`, non-objects warn). -/
def processEntry (P : LoadParams) : JEntry → Outcome
  | .badE r => .warn ⟨"Skipping invalid document descriptor", r⟩
  | .strE s => processDescriptor P (some s) none none
  | .objE p l t => processDescriptor P p l t

/-- The whole descriptor loop, accumulating `documents` and `warnings`
in order. -/
def loadDocumentsLoop (P : LoadParams) : List JEntry → List Document × List Warning
  | [] => ([], [])
  | e :: rest =>
    let r := loadDocumentsLoop P rest
    match processEntry P e with
    | .doc d => (d :: r.1, r.2)
    | .warn w => (r.1, w :: r.2)

/-- The two fatal errors of `loadDocuments`. -/
inductive LoadError where
  | inputShape : LoadError
  | noReadable : LoadError
deriving DecidableEq, Repr

/-- JS lines 537-651: `loadDocuments(fileEntries, options)`.  A non-array
argument is `none`; `.error .inputShape` is the thrown
`"Input must include at least one document."`, `.error .noReadable` the
thrown `"No readable documents were provided."`. -/
def loadDocuments (P : LoadParams) (fileEntries : Option (List JEntry)) :
    Except LoadError (List Document × List Warning) :=
  match fileEntries with
  | none => .error .inputShape
  | some entries =>
    if entries.isEmpty then .error .inputShape
    else
      let r := loadDocumentsLoop P entries
      if r.1.isEmpty then .error .noReadable else .ok r

/-- The `tableSampleRows` clamp of `resolveOptions`
(src/tools/process-documents.mjs lines 43-48):
`Math.max(1, Math.floor(options.tableSampleRows))` for a numeric value. -/
def resolveOptionsTableSampleRows (v : ℚ) : Int := max 1 ⌊v⌋

end DocLoader

namespace DocLoader

/-- A concrete oracle for witness instantiation: one readable path whose
text reads "hi". -/
def sampleWorld : FileWorld :=
  { readable := true, accessMsg := "", stats := 0
  , bytes := .ok [104, 105], txtText := .ok "hi", pdfText := .ok ""
  , docxText := .ok "", docText := .ok "", xlsxSheets := .ok [] }

/-- Concrete load parameters for witness instantiation. -/
def sampleParams : LoadParams :=
  { env := fun _ => sampleWorld, hash := fun bs => toString bs
  , jshow := fun _ => "", resolve := fun p => p
  , tableSampleRows := none, previewLimit := 6000 }

/-- C1: on the 25-line reconstructor fixture, `parseDocxTextToTables`
returns exactly the "Request Header" table (one row, with
`Order Number = "001-1699"`, `Order Requested by = "Ahmed Shaik"`,
`Project = "PA install"`, and also `Site = "Angel"`,
`Date Required = "16/04/25"`, empty `Date Ordered`) followed by the
"Request Items" table with the three expected rows. -/
theorem claim_C1_fixture : parseDocxTextToTables (String.intercalate "\n"
    ["Order Number", "001-1699", "Order Requested by", "Ahmed Shaik", "Project",
     "PA install", "Date Required", "16/04/25", "Site", "Angel", "Stores use Only",
     "No.", "Material/Plant Description", "Quantity Required", "1", "25mm conduits",
     "8", "2", "25mm conduit besa boxes and fixings", "5", "3",
     "25mm couplers and nipples", "10", "Signed by", "Storeman"]) =
  [⟨"Request Header", 1,
    [[("Order Number", .str "001-1699"),
      ("Order Requested by", .str "Ahmed Shaik"),
      ("Project", .str "PA install"),
      ("Site", .str "Angel"),
      ("Date Ordered", .str ""),
      ("Date Required", .str "16/04/25")]]⟩,
   ⟨"Request Items", 3,
    [[("No.", .num 1), ("Material/Plant Description", .str "25mm conduits"),
      ("Quantity Required", .str "8")],
     [("No.", .num 2),
      ("Material/Plant Description", .str "25mm conduit besa boxes and fixings"),
      ("Quantity Required", .str "5")],
     [("No.", .num 3),
      ("Material/Plant Description", .str "25mm couplers and nipples"),
      ("Quantity Required", .str "10")]]⟩] := by
  simp only [parseDocxTextToTables, extractDocxRequestItems_eval]
  decide

/-- C2: the reconstructor is a total function on every input (`none`
models `null`/`undefined`, coerced to `""` by `String(text || "")`): it
always returns a list of tables, of length at most two, and in the worst
case that list is empty (as on `null` and on text with no recognisable
structure). -/
theorem claim_C2_reconstructor_total :
    parseDocxTextToTablesJS none = [] ∧
    (∀ text : Option String, (parseDocxTextToTablesJS text).length ≤ 2) ∧
    parseDocxTextToTablesJS (some "Random note\nNo structured request here.") = [] := by
  refine ⟨by decide, ?_, ?_⟩
  · intro text
    simp only [parseDocxTextToTablesJS, parseDocxTextToTables]
    split
    · simp
    · split
      · split <;> simp
      · split <;> simp
  · simp only [parseDocxTextToTablesJS, parseDocxTextToTables,
      extractDocxRequestItems_eval]
    decide

/-- C4: each descriptor of a batch yields exactly one outcome — the
loop's documents are exactly the entries whose processing produced a
Document, its warnings exactly those that produced a warning, and the
two counts add up to the batch size (never both, never neither). -/
theorem claim_C4_one_outcome_per_entry (P : LoadParams) (entries : List JEntry) :
    loadDocumentsLoop P entries =
      (entries.filterMap (fun e => match processEntry P e with
        | .doc d => some d
        | .warn _ => none),
       entries.filterMap (fun e => match processEntry P e with
        | .doc _ => none
        | .warn w => some w)) ∧
    (loadDocumentsLoop P entries).1.length + (loadDocumentsLoop P entries).2.length =
      entries.length := by
  have main : loadDocumentsLoop P entries =
      (entries.filterMap (fun e => match processEntry P e with
        | .doc d => some d
        | .warn _ => none),
       entries.filterMap (fun e => match processEntry P e with
        | .doc _ => none
        | .warn w => some w)) := by
    induction entries with
    | nil => rfl
    | cons e rest ih =>
      simp only [loadDocumentsLoop, ih, List.filterMap_cons]
      cases processEntry P e <;> simp
  refine ⟨main, ?_⟩
  have count : ∀ es : List JEntry,
      (loadDocumentsLoop P es).1.length + (loadDocumentsLoop P es).2.length =
        es.length := by
    intro es
    induction es with
    | nil => rfl
    | cons e rest ih =>
      simp only [loadDocumentsLoop]
      cases processEntry P e <;> simp <;> omega
  exact count entries

end DocLoader

namespace DocLoader

/-- C3: `loadDocuments` throws the input-shape error exactly on a
non-array or empty-array input; for a non-empty batch it throws the
distinct no-readable-documents error exactly when the full pass produced
zero Documents; in every other case it returns the accumulated
`{documents, warnings}` — partial success is success. -/
theorem claim_C3_fatal_error_classification (P : LoadParams)
    (input : Option (List JEntry)) :
    (loadDocuments P input = .error .inputShape ↔
      input = none ∨ input = some []) ∧
    (∀ entries, input = some entries → entries ≠ [] →
      (loadDocuments P input = .error .noReadable ↔
        (loadDocumentsLoop P entries).1 = [])) ∧
    (∀ entries, input = some entries → entries ≠ [] →
      (loadDocumentsLoop P entries).1 ≠ [] →
      loadDocuments P input = .ok (loadDocumentsLoop P entries)) := by
  cases input with
  | none => simp [loadDocuments]
  | some entries =>
    by_cases he : entries = []
    · subst he
      simp [loadDocuments]
    · have hne : entries.isEmpty = false := by
        simpa [List.isEmpty_iff] using he
      refine ⟨?_, ?_, ?_⟩
      · simp only [loadDocuments, hne, Bool.false_eq_true, if_false]
        constructor
        · intro h
          split at h <;> simp_all
        · rintro (h | h) <;> simp_all
      · intro es hes _
        injection hes with hes
        subst hes
        simp only [loadDocuments, hne, Bool.false_eq_true, if_false]
        split <;> simp_all [List.isEmpty_iff]
      · intro es hes _ hdoc
        injection hes with hes
        subst hes
        have hiff : (loadDocumentsLoop P entries).1.isEmpty = false := by
          simpa [List.isEmpty_iff] using hdoc
        simp only [loadDocuments, hne, Bool.false_eq_true, if_false, hiff]

theorem claim_C3_witness :
    loadDocuments sampleParams (some [JEntry.strE "a.txt"]) =
      .ok (loadDocumentsLoop sampleParams [JEntry.strE "a.txt"]) :=
  (claim_C3_fatal_error_classification sampleParams
      (some [JEntry.strE "a.txt"])).2.2
    [JEntry.strE "a.txt"] rfl (by decide) (by decide)

/-- C7: preview truncation — text within the limit is returned unchanged,
longer text becomes exactly the first `limit` characters plus one
trailing marker (total length `limit + 1`), the preview never exceeds
`limit + 1` characters, empty text gives an empty preview, and the
summary's preview is exactly this truncation of the document text. -/
theorem claim_C7_preview_truncation (text : String) (tables : List Table)
    (limit : Nat) :
    (text.length ≤ limit → truncate text limit = text) ∧
    (limit < text.length →
      truncate text limit = String.mk (text.data.take limit) ++ "…" ∧
      (truncate text limit).length = limit + 1) ∧
    (truncate text limit).length ≤ limit + 1 ∧
    truncate "" limit = "" ∧
    (createDocumentSummary text tables limit).preview = truncate text limit := by
  have hlen : ∀ s : String, s.length = s.data.length := fun _ => rfl
  have hA : text.length ≤ limit → truncate text limit = text := by
    intro h
    unfold truncate
    split
    · simp_all
    · simp_all
  have hB : limit < text.length →
      truncate text limit = String.mk (text.data.take limit) ++ "…" ∧
      (truncate text limit).length = limit + 1 := by
    intro h
    have hne : text ≠ "" := by
      intro hz
      subst hz
      simp [hlen] at h
    have hgt : ¬ text.length ≤ limit := by omega
    unfold truncate
    rw [if_neg hne, if_neg hgt]
    refine ⟨rfl, ?_⟩
    have : (String.mk (text.data.take limit) ++ "…").length =
        (text.data.take limit).length + 1 := by
      rw [String.length_append]
      rfl
    rw [this, List.length_take]
    rw [hlen] at h
    omega
  refine ⟨hA, hB, ?_, rfl, rfl⟩
  rcases le_or_lt text.length limit with h | h
  · rw [hA h]
    omega
  · rw [(hB h).2]

theorem claim_C7_witness :
    truncate "ab" 5 = "ab" ∧
    truncate "abcd" 2 = String.mk ("abcd".data.take 2) ++ "…" ∧
    (truncate "abcd" 2).length = 3 :=
  ⟨(claim_C7_preview_truncation "ab" [] 5).1 (by decide),
   ((claim_C7_preview_truncation "abcd" [] 2).2.1 (by decide)).1,
   ((claim_C7_preview_truncation "abcd" [] 2).2.1 (by decide)).2⟩

/-- C9: spreadsheet sheets are sampled to the first
`min tableSampleRows totalRows` rows while `totalRows` reports the full
count; the tool layer clamps any caller-supplied numeric
`tableSampleRows` to at least 1; a 5-row sheet with `tableSampleRows=2`
yields 2 sample rows and `totalRows = 5`; and the reconstructor's own
tables always carry all their rows (`sampleRows.length = totalRows`,
never capped). -/
theorem claim_C9_table_sampling (sheets : List (String × List Row)) (n : Nat)
    (jshow : List Row → String) (v : ℚ) :
    (loadXlsxFromRows sheets (some n) jshow).tables =
      some (sheets.map (fun kv => ⟨kv.1, kv.2.length, kv.2.take n⟩)) ∧
    (∀ t ∈ ((loadXlsxFromRows sheets (some n) jshow).tables.getD []),
      t.sampleRows.length = min n t.totalRows) ∧
    1 ≤ resolveOptionsTableSampleRows v ∧
    (loadXlsxFromRows [("Sheet1", [[], [], [], [], []])] (some 2) jshow).tables =
      some [⟨"Sheet1", 5, [[], []]⟩] ∧
    (∀ text : String, ∀ t ∈ parseDocxTextToTables text,
      t.sampleRows.length = t.totalRows) := by
  refine ⟨rfl, ?_, le_max_left 1 _, rfl, ?_⟩
  · intro t ht
    simp only [loadXlsxFromRows, Option.getD_some, List.mem_map] at ht
    obtain ⟨kv, _, rfl⟩ := ht
    simp [List.length_take]
  · intro text t ht
    simp only [parseDocxTextToTables] at ht
    split at ht
    · simp at ht
    · split at ht
      · rcases List.mem_append.mp ht with h | h
        · split at h
          · rcases List.mem_singleton.mp h with rfl
            rfl
          · simp at h
        · rcases List.mem_singleton.mp h with rfl
          rfl
      · split at ht
        · rcases List.mem_singleton.mp ht with rfl
          rfl
        · simp at ht

theorem claim_C9_witness :
    (Table.mk "Sheet1" 5 [[], []]).sampleRows.length =
      min 2 (Table.mk "Sheet1" 5 [[], []]).totalRows ∧
    (Table.mk "Request Items" 1
        [[("No.", CellValue.num 1),
          ("Material/Plant Description", CellValue.str "foo"),
          ("Quantity Required", CellValue.str "2")]]).sampleRows.length =
      (Table.mk "Request Items" 1
        [[("No.", CellValue.num 1),
          ("Material/Plant Description", CellValue.str "foo"),
          ("Quantity Required", CellValue.str "2")]]).totalRows :=
  ⟨(claim_C9_table_sampling [("Sheet1", [[], [], [], [], []])] 2 (fun _ => "") 0).2.1
      _ (by decide),
   (claim_C9_table_sampling [] 0 (fun _ => "") 0).2.2.2.2 "1\nfoo\n2" _
      (by simp only [parseDocxTextToTables, extractDocxRequestItems_eval]; decide)⟩

end DocLoader

namespace DocLoader

/-- C5 counterexample: in the fixture lines `["Project", "Site"]` the
label-only line `Project` is immediately followed by `Site`, itself one
of the six canonical header labels, yet header extraction takes `"Site"`
as the value of the `Project` field — the next-line veto only checks the
*current field's own alias keys* (`project`, `job name`), not the other
known header labels, so the claim "a label-only line immediately
followed by another known label line is never misread as providing a
value" fails on the code. -/
theorem claim_C5_counterexample :
    extractDocxHeaderValue ["Project", "Site"] ["Project", "Job Name"] = "Site" ∧
    extractDocxRequestHeader ["Project", "Site"] =
      some [("Order Number", .str ""), ("Order Requested by", .str ""),
            ("Project", .str "Site"), ("Site", .str ""),
            ("Date Ordered", .str ""), ("Date Required", .str "")] ∧
    normalisedKey "Site" = "site" ∧ normalisedKey "Project" = "project" := by
  decide

/-- C5 (amended): when the first matching line is exactly a field label
with no inline (colon) value, the next line is taken as the field's
value only if it is non-empty and its normalised key is not one of
*that field's own accepted alias keys*; such a value always comes from
the immediately following line. -/
theorem claim_C5_label_only_guard (keys : List String) (key line : String)
    (rest : List String) (normalized : String) (v : String)
    (hinline : inlineHeaderValue line = none)
    (h : headerKeyAttempt keys key line rest normalized = some v) :
    ∃ nextLine r, rest = nextLine :: r ∧ normalized = key ∧
      v = normaliseLine nextLine ∧ v ≠ "" ∧
      keys.contains (normalisedKey v) = false := by
  simp only [headerKeyAttempt, hinline] at h
  split at h
  · split at h
    · next hkey =>
      cases rest with
      | nil => exact absurd h (by simp)
      | cons nextLine r =>
        simp only at h
        split at h
        · next hcond =>
          injection h with hv
          subst hv
          exact ⟨nextLine, r, rfl, hkey, rfl, hcond.1, by simpa using hcond.2⟩
        · exact absurd h (by simp)
    · exact absurd h (by simp)
  · exact absurd h (by simp)

theorem claim_C5_witness :
    ∃ nextLine r, (["16/04/25"] : List String) = nextLine :: r ∧
      ("date required" : String) = "date required" ∧
      ("16/04/25" : String) = normaliseLine nextLine ∧
      ("16/04/25" : String) ≠ "" ∧
      (["date required", "required date", "need by"] : List String).contains
        (normalisedKey "16/04/25") = false :=
  claim_C5_label_only_guard ["date required", "required date", "need by"]
    "date required" "Date Required" ["16/04/25"] "date required" "16/04/25"
    (by decide) (by decide)

/-- C6 counterexample: in the window `["1", "widget", "ccl no"]` a
row-number line (`1`) and a valid description (`widget`) are found and
no subsequent line contains a decimal numeric token, satisfying the
claim's premise; the claim then requires the scanner to reset the cursor
to just past the description (step `.skip 2`) and resume, but the code
`break`s out of the loop (step `.halt`, JS lines 398-400), because the
quantity search ran off the window end across noise lines. -/
theorem claim_C6_counterexample :
    rowNumberOf "1" = some 1 ∧
    skipNoise ["1", "widget", "ccl no"] 1 = 1 ∧
    isDocxNoiseLine "widget" = false ∧
    hasNumberToken (normaliseLine "widget") = false ∧
    hasNumberToken (normaliseLine "ccl no") = false ∧
    scanStep ["1", "widget", "ccl no"] 0 = .halt ∧
    ¬ scanStep ["1", "widget", "ccl no"] 0 = .skip 2 := by
  decide

/-- C6 (amended): when a row-number candidate and a valid description
have been found and the quantity search lands on a non-noise line inside
the window that contains no decimal numeric token, the scanner does not
abort: the step is `.skip (d + 1)` — the cursor resets to just past the
description line — and the loop resumes scanning from there, so rows
occurring later in the window can still be emitted.  (When instead only
noise lines remain to the window end, the code breaks out of the loop.) -/
theorem claim_C6_quantity_miss_backtrack (sc : List String)
    (cursor d q num : Nat) (rows : List Row)
    (hnum : rowNumberOf (sc.getD cursor "") = some num)
    (hd : skipNoise sc (cursor + 1) = d)
    (hdlt : d < sc.length)
    (hdesc1 : normaliseLine (sc.getD d "") ≠ "")
    (hdesc2 : ¬ ((normaliseLine (sc.getD d "")).data ≠ [] ∧
      (normaliseLine (sc.getD d "")).data.all Char.isDigit))
    (hdesc3 : isDocxNoiseLine (normaliseLine (sc.getD d "")) = false)
    (hq : skipNoise sc (d + 1) = q)
    (hqlt : q < sc.length)
    (hqno : hasNumberToken (normaliseLine (sc.getD q "")) = false) :
    scanStep sc cursor = .skip (d + 1) ∧
    (cursor < sc.length → rows.length < DEFAULT_MAX_REQUEST_ITEMS →
      scanLoop sc cursor rows = scanLoop sc (d + 1) rows) := by
  have hstep : scanStep sc cursor = .skip (d + 1) := by
    simp only [List.getD_eq_getElem?_getD] at hnum hdesc1 hdesc2 hdesc3 hqno
    simp only [scanStep, List.getD_eq_getElem?_getD, hnum, hd, hq]
    split
    · exfalso
      omega
    · split
      · next hdis =>
        exfalso
        rcases hdis with h | h | h
        · exact hdesc1 h
        · exact hdesc2 h
        · simp [hdesc3] at h
      · split
        · exfalso
          omega
        · split
          · next hhas => simp [hqno] at hhas
          · rfl
  refine ⟨hstep, ?_⟩
  intro hc hr
  rw [scanLoop, dif_pos ⟨hc, hr⟩]
  split
  · next heq =>
    rw [hstep] at heq
    cases heq
  · next n heq =>
    rw [hstep] at heq
    injection heq with hn
    subst hn
    rfl
  · next row n heq =>
    rw [hstep] at heq
    cases heq

theorem claim_C6_witness :
    scanStep ["1", "widget", "banana"] 0 = .skip 2 ∧
    (0 < (["1", "widget", "banana"] : List String).length →
      ([] : List Row).length < DEFAULT_MAX_REQUEST_ITEMS →
      scanLoop ["1", "widget", "banana"] 0 [] =
        scanLoop ["1", "widget", "banana"] 2 []) :=
  claim_C6_quantity_miss_backtrack ["1", "widget", "banana"] 0 1 2 1 []
    (by decide) (by decide) (by decide) (by decide) (by decide) (by decide)
    (by decide) (by decide) (by decide)

end DocLoader

namespace DocLoader

/-- Case analysis of a successful loader dispatch: the produced record's
`type` equals the dispatched tag; `buffer` was set (to the raw file
bytes) exactly on the pdf and doc paths and left unset on the txt, docx
and xlsx paths. -/
theorem loadByType_ok_cases (w : FileWorld) (extType : String)
    (tsr : Option Nat) (j : List Row → String) (parsed : ParsedDoc)
    (h : loadByType w extType tsr j = .ok parsed) :
    parsed.type = extType ∧
    ((parsed.buffer = none ∧
        (extType = "txt" ∨ extType = "docx" ∨ extType = "xlsx")) ∨
     (∃ b, w.bytes = .ok b ∧ parsed.buffer = some b ∧
        (extType = "pdf" ∨ extType = "doc"))) := by
  unfold loadByType at h
  split at h
  · next ht =>
    cases htx : w.txtText with
    | error e =>
      simp only [htx] at h
      exact absurd h (by simp)
    | ok t =>
      simp only [htx] at h
      injection h with hp
      subst hp
      exact ⟨ht.symm, Or.inl ⟨rfl, Or.inl ht⟩⟩
  · split at h
    · next ht =>
      cases hb : w.bytes with
      | error e =>
        simp only [hb] at h
        exact absurd h (by simp)
      | ok b =>
        simp only [hb] at h
        cases hpt : w.pdfText with
        | error e =>
          simp only [hpt] at h
          exact absurd h (by simp)
        | ok t =>
          simp only [hpt] at h
          injection h with hp
          subst hp
          exact ⟨ht.symm, Or.inr ⟨b, rfl, rfl, Or.inl ht⟩⟩
    · split at h
      · next ht =>
        cases hdx : w.docxText with
        | error e =>
          simp only [hdx] at h
          exact absurd h (by simp)
        | ok t =>
          simp only [hdx] at h
          injection h with hp
          subst hp
          exact ⟨ht.symm, Or.inl ⟨rfl, Or.inr (Or.inl ht)⟩⟩
      · split at h
        · next ht =>
          cases hdc : w.docText with
          | error e =>
            simp only [hdc] at h
            exact absurd h (by simp)
          | ok t =>
            simp only [hdc] at h
            cases hb : w.bytes with
            | error e =>
              simp only [hb] at h
              exact absurd h (by simp)
            | ok b =>
              simp only [hb] at h
              injection h with hp
              subst hp
              exact ⟨ht.symm, Or.inr ⟨b, rfl, rfl, Or.inr ht⟩⟩
        · split at h
          · next ht =>
            cases hx : w.xlsxSheets with
            | error e =>
              simp only [hx] at h
              exact absurd h (by simp)
            | ok sheets =>
              simp only [hx] at h
              injection h with hp
              subst hp
              exact ⟨ht.symm, Or.inl ⟨rfl, Or.inr (Or.inr ht)⟩⟩
          · simp at h

/-- The checksum-source fact for one object descriptor (used by the C8
claim theorem for all three descriptor shapes). -/
theorem processDescriptor_doc_checksum (P : LoadParams)
    (rawPath label typeHint : Option String) (d : Document)
    (h : processDescriptor P rawPath label typeHint = .doc d) :
    (d.type = "txt" ∧ d.checksum = P.hash (utf8Encode d.text)) ∨
    ((d.type = "pdf" ∨ d.type = "docx" ∨ d.type = "doc" ∨ d.type = "xlsx") ∧
      ∃ b, (P.env d.path).bytes = .ok b ∧ d.checksum = P.hash b) := by
  cases rawPath with
  | none => simp [processDescriptor] at h
  | some p =>
    simp only [processDescriptor] at h
    split at h
    · simp at h
    · split at h
      · simp at h
      · cases hnt : normaliseType typeHint (P.resolve p) with
        | none =>
          simp only [hnt] at h
          exact absurd h (by simp)
        | some extType =>
          simp only [hnt] at h
          cases hlb : loadByType (P.env (P.resolve p)) extType
              P.tableSampleRows P.jshow with
          | error msg =>
            simp only [hlb] at h
            exact absurd h (by simp)
          | ok parsed =>
            simp only [hlb] at h
            obtain ⟨htype, hbuf⟩ := loadByType_ok_cases _ _ _ _ _ hlb
            rcases hbuf with ⟨hbnone, hext⟩ | ⟨b, hwb, hbsome, hext⟩
            · simp only [hbnone] at h
              rcases hext with hx | hx | hx
              · subst hx
                rw [if_pos rfl] at h
                injection h with hd
                subst hd
                exact Or.inl ⟨htype, rfl⟩
              · subst hx
                rw [if_neg (by decide)] at h
                cases hwb : (P.env (P.resolve p)).bytes with
                | error e =>
                  simp only [hwb] at h
                  exact absurd h (by simp)
                | ok bytes =>
                  simp only [hwb] at h
                  injection h with hd
                  subst hd
                  exact Or.inr ⟨Or.inr (Or.inl htype), bytes, hwb, rfl⟩
              · subst hx
                rw [if_neg (by decide)] at h
                cases hwb : (P.env (P.resolve p)).bytes with
                | error e =>
                  simp only [hwb] at h
                  exact absurd h (by simp)
                | ok bytes =>
                  simp only [hwb] at h
                  injection h with hd
                  subst hd
                  exact Or.inr ⟨Or.inr (Or.inr (Or.inr htype)), bytes, hwb, rfl⟩
            · simp only [hbsome] at h
              injection h with hd
              subst hd
              rcases hext with hx | hx
              · exact Or.inr ⟨Or.inl (hx ▸ htype), b, hwb, rfl⟩
              · exact Or.inr ⟨Or.inr (Or.inr (Or.inl (hx ▸ htype))), b, hwb, rfl⟩

/-- C8: every produced Document's checksum is the content hash of the
original file bytes when its resolved type is a binary format (pdf,
docx, doc, spreadsheet), and of the UTF-8 encoding of the extracted text
when it is plain text. -/
theorem claim_C8_checksum_source (P : LoadParams) (e : JEntry) (d : Document)
    (h : processEntry P e = .doc d) :
    (d.type = "txt" ∧ d.checksum = P.hash (utf8Encode d.text)) ∨
    ((d.type = "pdf" ∨ d.type = "docx" ∨ d.type = "doc" ∨ d.type = "xlsx") ∧
      ∃ b, (P.env d.path).bytes = .ok b ∧ d.checksum = P.hash b) := by
  cases e with
  | badE r => simp [processEntry] at h
  | strE s => exact processDescriptor_doc_checksum P (some s) none none d h
  | objE p l t => exact processDescriptor_doc_checksum P p l t d h

/-- The Document that `sampleParams` produces for the entry "a.txt". -/
def sampleDoc : Document :=
  { path := "a.txt", label := none, type := "txt", text := "hi", tables := []
  , checksum := "[104, 105]", stats := 0
  , summary := { charCount := 2, wordCount := 1, tableCount := 0, preview := "hi" } }

theorem claim_C8_witness :
    (sampleDoc.type = "txt" ∧
      sampleDoc.checksum = sampleParams.hash (utf8Encode sampleDoc.text)) ∨
    ((sampleDoc.type = "pdf" ∨ sampleDoc.type = "docx" ∨ sampleDoc.type = "doc" ∨
        sampleDoc.type = "xlsx") ∧
      ∃ b, (sampleParams.env sampleDoc.path).bytes = .ok b ∧
        sampleDoc.checksum = sampleParams.hash b) :=
  claim_C8_checksum_source sampleParams (JEntry.strE "a.txt") sampleDoc (by decide)

/-- C10: the item-row scan terminates — every loop iteration strictly
increases the cursor (both on a skip and on an emit), so one fuel unit
per window line is enough: the fuel-bounded loop with fuel at least the
remaining window length agrees with the while loop, and
`extractDocxRequestItems` is computed by at most window-length
iterations (beyond the 500-row collection cap enforced in the loop
guard). -/
theorem claim_C10_scan_termination :
    (∀ sc cursor n, scanStep sc cursor = .skip n → cursor < n) ∧
    (∀ sc cursor row n, scanStep sc cursor = .emit row n → cursor < n) ∧
    (∀ fuel sc cursor rows, sc.length - cursor ≤ fuel →
      scanLoopFuel fuel sc cursor rows = scanLoop sc cursor rows) ∧
    (∀ lines, extractDocxRequestItems lines =
      scanLoopFuel (scopedLinesOf lines).length (scopedLinesOf lines) 0 []) :=
  ⟨fun _ _ _ h => scanStep_skip_lt h,
   fun _ _ _ _ h => scanStep_emit_lt h,
   fun fuel sc cursor rows h => scanLoopFuel_adequate fuel sc cursor rows h,
   extractDocxRequestItems_eval⟩

theorem claim_C10_witness :
    scanLoopFuel 3 ["1", "x", "2"] 0 [] = scanLoop ["1", "x", "2"] 0 [] :=
  claim_C10_scan_termination.2.2.1 3 ["1", "x", "2"] 0 [] (by decide)

end DocLoader
